import Mathlib

/-!
Shallow embedding of the file-integrity scan-and-compare pipeline from
`file_integrity_parallel.py` and `file_integrity_linear.py`.

Numeric conventions: file hashes and sizes are natural numbers; timestamps
are rationals (every IEEE-754 double value produced by `os.path.getmtime`
or parsed from the JSON snapshot is a rational number, and double equality
on such values is exact rational equality).  The baseline is stored in a
numpy array of dtype float64, so integers written into it — and integers
compared against it — are first rounded to the nearest representable
float64 value; `fl` below models that rounding for non-negative integers.
-/

namespace FIM

/-- Number of binary digits of `n`, computed with explicit structural fuel so
that it reduces in the kernel.  `bitsFuel fuel n` is the bit length of `n`
provided `fuel` is at least that length. -/
def bitsFuel : Nat → Nat → Nat
  | 0, _ => 0
  | fuel + 1, n => if n = 0 then 0 else bitsFuel fuel (n / 2) + 1

/-- Bit length of `n` (enough fuel for every integer below `2 ^ 1100`, which
covers the whole finite range of float64). -/
def bitLen (n : Nat) : Nat := bitsFuel 1100 n

/-- Rounding of a non-negative integer to the nearest float64 value
(round-to-nearest, ties-to-even), returned as a natural number.  Integers
up to `2 ^ 53` are exactly representable and unchanged; larger integers are
rounded to a multiple of `2 ^ (bitLen n - 53)`.  This models numpy's
conversion of a Python int to dtype float64, which happens both when
`load_baseline_metadata` assigns `entry["hash"]` / `entry["size"]` into the
float64 array and when a worker's int is compared against that array. -/
def fl (n : Nat) : Nat :=
  if n ≤ 2 ^ 53 then n
  else
    let e := bitLen n - 53
    let q := n / 2 ^ e
    let r := n % 2 ^ e
    let half := 2 ^ (e - 1)
    if r < half then q * 2 ^ e
    else if half < r then (q + 1) * 2 ^ e
    else if q % 2 = 0 then q * 2 ^ e else (q + 1) * 2 ^ e

/-- A metadata triple: the dict produced by `calculate_file_metadata`
(`{"hash": …, "size": …, "timestamp": …}`), and also one row of the
baseline array. -/
structure FileMeta where
  hash : Nat
  size : Nat
  timestamp : ℚ
deriving DecidableEq

/-- One row as stored by `load_baseline_metadata`: `np_array[i,0] = hash`,
`np_array[i,1] = size`, `np_array[i,2] = timestamp` into a float64 array,
so the integer fields are rounded by `fl`; the timestamp is already a
float64 value and is stored unchanged. -/
def storeRow (e : FileMeta) : FileMeta :=
  ⟨fl e.hash, fl e.size, e.timestamp⟩

/-- Classified alerts.  Each constructor corresponds to one message format
in the source: `"New file detected: {p}"`, `"File size changed: {p}"`,
`"File timestamp changed: {p}"`, `"Error processing file {p}: {e}"`
(parallel worker), and `"File not found: {p}"` (linear scanner only). -/
inductive Alert where
  | newFile (path : String)
  | sizeChanged (path : String)
  | timestampChanged (path : String)
  | processingError (path : String) (msg : String)
  | fileNotFound (path : String)
deriving DecidableEq

/-- Outcome of attempting to hash and stat one file, the input that the
filesystem hands to `calculate_file_metadata`:  the file was read
successfully and yielded a metadata dict; it vanished
(`FileNotFoundError`); or some other exception was raised (for example a
permission error while opening the file). -/
inductive FetchOutcome where
  | metadata (m : FileMeta)
  | fileNotFound
  | raised (msg : String)
deriving DecidableEq

/-- `calculate_file_metadata` (lines 25–37 of `file_integrity_parallel.py`):
on success returns the metadata dict; `except FileNotFoundError: return
None`; every other exception propagates to the caller. -/
def calculate_file_metadata : FetchOutcome → Except String (Option FileMeta)
  | .metadata m => .ok (some m)
  | .fileNotFound => .ok none
  | .raised e => .error e

/-- First baseline row whose stored hash equals `hsh`; models
`hash not in baseline_hashes` (`none`) and
`idx = np.where(baseline_hashes == hash)[0][0]` (`some` of the first
matching row). -/
def firstMatch (hsh : Nat) : List FileMeta → Option FileMeta
  | [] => none
  | row :: rest => if row.hash = hsh then some row else firstMatch hsh rest

/-- Comparison of one successfully-hashed file against the baseline array
(lines 98–105 of `file_integrity_parallel.py`, identical logic at lines
93–100 of `file_integrity_linear.py`).  The worker's integer hash and size
are converted to float64 (`fl`) by the numpy comparison against the
float64 array. -/
def processFile (rows : List FileMeta) (path : String) (m : FileMeta) : List Alert :=
  match firstMatch (fl m.hash) rows with
  | none => [Alert.newFile path]
  | some row =>
      (if fl m.size ≠ row.size then [Alert.sizeChanged path] else []) ++
      (if m.timestamp ≠ row.timestamp then [Alert.timestampChanged path] else [])

/-- The per-worker observable state: the shared alert list and the shared
progress counter. -/
structure WorkerState where
  alerts : List Alert
  counter : Nat
deriving DecidableEq

/-- One iteration of the worker loop body after the `"STOP"` check (lines
82–112 of `file_integrity_parallel.py`): hash the file; if
`calculate_file_metadata` returned `None`, only advance the counter and
`continue`; on success compare with the baseline and append the resulting
alerts, then advance the counter; if an exception was raised, the
`except` block appends an error alert and advances the counter. -/
def worker_step (rows : List FileMeta) (s : WorkerState) (path : String)
    (out : FetchOutcome) : WorkerState :=
  match calculate_file_metadata out with
  | .error e => ⟨s.alerts ++ [Alert.processingError path e], s.counter + 1⟩
  | .ok none => ⟨s.alerts, s.counter + 1⟩
  | .ok (some m) => ⟨s.alerts ++ processFile rows path m, s.counter + 1⟩

/-- A worker processing its sequence of claimed tasks in order (the loop of
`worker_process`).  Each task is the claimed path together with the
filesystem outcome of hashing it.  A task equal to the literal `"STOP"`
makes the loop `break` before any processing. -/
def worker_run (rows : List FileMeta) (s : WorkerState) :
    List (String × FetchOutcome) → WorkerState
  | [] => s
  | (path, out) :: rest =>
      if path = "STOP" then s
      else worker_run rows (worker_step rows s path out) rest

/-- `load_baseline_metadata` of `file_integrity_parallel.py` (lines 10–22)
writing into the pre-allocated shared float64 array of `num_rows` rows:
row `i` receives the stored form of entry `i`.  If the snapshot has more
entries than the array has rows, the assignment `np_array[i, 0] = …` at
the first out-of-range index raises `IndexError` (modelled as `none`);
otherwise the rows past the last entry keep the zeros the array was
allocated with. -/
def load_baseline_metadata (entries : List FileMeta) (num_rows : Nat) :
    Option (List FileMeta) :=
  if entries.length ≤ num_rows then
    some (entries.map storeRow ++ List.replicate (num_rows - entries.length) ⟨0, 0, 0⟩)
  else
    none

/-- `load_baseline_metadata` of `file_integrity_linear.py` (lines 8–29):
the array is allocated with exactly one row per snapshot entry. -/
def load_baseline_linear (entries : List FileMeta) : List FileMeta :=
  entries.map storeRow

/-- `process_files` of `file_integrity_linear.py` (lines 60–102): iterate
over the discovered files in order; a file whose metadata computation
returned `None` yields a `fileNotFound` alert, otherwise the baseline
comparison runs.  The linear scanner has no exception handler around the
loop body. -/
def process_files (rows : List FileMeta) :
    List (String × Option FileMeta) → List Alert
  | [] => []
  | (path, om) :: rest =>
      (match om with
       | none => [Alert.fileNotFound path]
       | some m => processFile rows path m) ++ process_files rows rest

/-- Outcome of a whole run of `main` in `file_integrity_parallel.py`:
either an uncaught exception before any worker started (no alerts, process
exits with a non-zero status), or a completed scan with its final alert
list and counter value. -/
inductive RunResult where
  | failed
  | completed (alerts : List Alert) (counter : Nat)
deriving DecidableEq

/-- `main` of `file_integrity_parallel.py` (lines 115–152) up to the final
drain.  `snapshot = none` models a syntactically invalid baseline file:
`json.load` raises inside `load_baseline_metadata`, which is called before
the queue, the producer or any worker exists, so the run dies with no
scanning and no alerts.  A well-formed snapshot is loaded into the shared
array of `num_files` rows (`num_files` is the count of files currently in
the scan directory); an `IndexError` there is equally fatal.  Otherwise
the workers process the discovered tasks. -/
def mainRun (snapshot : Option (List FileMeta)) (num_files : Nat)
    (tasks : List (String × FetchOutcome)) : RunResult :=
  match snapshot with
  | none => .failed
  | some entries =>
      match load_baseline_metadata entries num_files with
      | none => .failed
      | some rows =>
          let final := worker_run rows ⟨[], 0⟩ tasks
          .completed final.alerts final.counter

/-- State of the producer/queue system of `producer_process` (lines 40–60
of `file_integrity_parallel.py`): how many unclaimed tasks sit in the
queue, which paths remain to be enqueued, and whether the producer is
inside the `while queue.qsize() >= buffer_size: pass` wait loop that
follows each `put`. -/
structure ProdState where
  queueLen : Nat
  pending : List String
  waiting : Bool
deriving DecidableEq

/-- Atomic transitions of the producer/queue system with queue capacity
`cap`.  `put`: the producer enqueues the next path unconditionally (the
source calls `queue.put` before checking the size) and then enters the
wait loop.  `checkPass`: the wait loop exits once the observed queue size
is below `cap`.  `consume`: a worker dequeues one task at any time. -/
inductive ProdStep (cap : Nat) : ProdState → ProdState → Prop
  | put (q : Nat) (p : String) (rest : List String) :
      ProdStep cap ⟨q, p :: rest, false⟩ ⟨q + 1, rest, true⟩
  | checkPass (q : Nat) (ts : List String) (h : q < cap) :
      ProdStep cap ⟨q, ts, true⟩ ⟨q, ts, false⟩
  | consume (q : Nat) (ts : List String) (w : Bool) :
      ProdStep cap ⟨q + 1, ts, w⟩ ⟨q, ts, w⟩

/-- States reachable in a run of the producer over the discovered `paths`,
starting from an empty queue. -/
inductive ProdReach (cap : Nat) (paths : List String) : ProdState → Prop
  | init : ProdReach cap paths ⟨0, paths, false⟩
  | step {s s' : ProdState} : ProdReach cap paths s → ProdStep cap s s' →
      ProdReach cap paths s'

/-! Helper lemmas about the embedding. -/

/-- Integers up to `2 ^ 53` are exactly representable in float64, so `fl`
leaves them unchanged. -/
theorem fl_of_le {n : Nat} (h : n ≤ 2 ^ 53) : fl n = n := by
  unfold fl
  rw [if_pos h]

/-- The membership test `hash not in baseline_hashes` succeeds exactly when
some row carries the probed (already rounded) hash. -/
theorem firstMatch_isSome_iff (hsh : Nat) (rows : List FileMeta) :
    (firstMatch hsh rows).isSome = true ↔ ∃ r ∈ rows, r.hash = hsh := by
  induction rows with
  | nil => simp [firstMatch]
  | cons r rest ih =>
    by_cases h : r.hash = hsh
    · simp [firstMatch, h]
    · simp [firstMatch, h, ih]

/-- When the stored hashes are pairwise distinct, the first matching row is
the unique row carrying the probed hash. -/
theorem firstMatch_eq_of_pairwise {rows : List FileMeta} {row : FileMeta} {hsh : Nat}
    (hdist : rows.Pairwise fun a b => a.hash ≠ b.hash)
    (hmem : row ∈ rows) (hh : row.hash = hsh) :
    firstMatch hsh rows = some row := by
  induction rows with
  | nil => cases hmem
  | cons r rest ih =>
    rw [List.pairwise_cons] at hdist
    rcases List.mem_cons.mp hmem with h | h
    · subst h
      simp [firstMatch, hh]
    · have hr : ¬ r.hash = hsh := fun hceq => hdist.1 row h (hceq.trans hh.symm)
      simp only [firstMatch, hr, if_false]
      exact ih hdist.2 h

/-- A file whose metadata coincides with some baseline entry produces no
alert, provided no two stored rows share a rounded fingerprint. -/
theorem processFile_eq_nil (entries : List FileMeta) (p : String) (m : FileMeta)
    (hdist : (entries.map storeRow).Pairwise fun a b => a.hash ≠ b.hash)
    (e : FileMeta) (he : e ∈ entries)
    (hh : m.hash = e.hash) (hs : m.size = e.size) (ht : m.timestamp = e.timestamp) :
    processFile (entries.map storeRow) p m = [] := by
  have hfm : firstMatch (fl m.hash) (entries.map storeRow) = some (storeRow e) :=
    firstMatch_eq_of_pairwise hdist (List.mem_map_of_mem _ he)
      (by simp [storeRow, hh])
  simp [processFile, hfm, storeRow, hs, ht]

/-- Each worker-loop iteration on a real (non-sentinel) task increments the
progress counter by exactly one, whatever the hashing outcome. -/
theorem worker_step_counter (rows : List FileMeta) (s : WorkerState)
    (path : String) (out : FetchOutcome) :
    (worker_step rows s path out).counter = s.counter + 1 := by
  cases out <;> simp [worker_step, calculate_file_metadata]

/-- Over any task sequence free of the `"STOP"` sentinel, a worker's run
adds exactly the number of tasks to the counter. -/
theorem worker_run_counter (rows : List FileMeta)
    (tasks : List (String × FetchOutcome)) :
    ∀ s : WorkerState, (∀ t ∈ tasks, t.1 ≠ "STOP") →
      (worker_run rows s tasks).counter = s.counter + tasks.length := by
  induction tasks with
  | nil => intro s _; simp [worker_run]
  | cons t rest ih =>
    intro s h
    obtain ⟨p, out⟩ := t
    have hp : p ≠ "STOP" := h (p, out) (List.mem_cons_self _ _)
    have hrest : ∀ t ∈ rest, t.1 ≠ "STOP" := fun t ht => h t (List.mem_cons_of_mem _ ht)
    simp only [worker_run, hp, if_false]
    rw [ih (worker_step rows s p out) hrest, worker_step_counter]
    simp [List.length_cons]
    omega

/-- A worker run over readable files that all coincide with some baseline
entry leaves the alert list unchanged, provided no two stored rows share a
rounded fingerprint. -/
theorem worker_run_alerts_nil (entries : List FileMeta)
    (hdist : (entries.map storeRow).Pairwise fun a b => a.hash ≠ b.hash)
    (files : List (String × FileMeta)) :
    ∀ s : WorkerState,
      (∀ f ∈ files, f.1 ≠ "STOP" ∧ ∃ e ∈ entries, f.2.hash = e.hash ∧
        f.2.size = e.size ∧ f.2.timestamp = e.timestamp) →
      (worker_run (entries.map storeRow) s
        (files.map fun f => (f.1, FetchOutcome.metadata f.2))).alerts = s.alerts := by
  induction files with
  | nil => intro s _; simp [worker_run]
  | cons f rest ih =>
    intro s h
    obtain ⟨hp, e, he, hh, hsz, ht⟩ := h f (List.mem_cons_self _ _)
    have hpf : processFile (entries.map storeRow) f.1 f.2 = [] :=
      processFile_eq_nil entries f.1 f.2 hdist e he hh hsz ht
    have hrest := fun t ht' => h t (List.mem_cons_of_mem _ ht')
    simp only [List.map_cons, worker_run, hp, if_false, worker_step,
      calculate_file_metadata, hpf, List.append_nil]
    exact ih _ hrest

/-- The linear scanner's loop over readable files that all coincide with
some baseline entry produces no alert, under the same distinctness
condition. -/
theorem process_files_alerts_nil (entries : List FileMeta)
    (hdist : (entries.map storeRow).Pairwise fun a b => a.hash ≠ b.hash)
    (files : List (String × FileMeta)) :
    (∀ f ∈ files, ∃ e ∈ entries, f.2.hash = e.hash ∧
      f.2.size = e.size ∧ f.2.timestamp = e.timestamp) →
    process_files (entries.map storeRow) (files.map fun f => (f.1, some f.2)) = [] := by
  induction files with
  | nil => intro _; simp [process_files]
  | cons f rest ih =>
    intro h
    obtain ⟨e, he, hh, hsz, ht⟩ := h f (List.mem_cons_self _ _)
    have hpf : processFile (entries.map storeRow) f.1 f.2 = [] :=
      processFile_eq_nil entries f.1 f.2 hdist e he hh hsz ht
    simp only [List.map_cons, process_files, hpf, List.nil_append]
    exact ih fun t ht' => h t (List.mem_cons_of_mem _ ht')

/-- Lookup skips a prefix of rows none of which carries the probed hash. -/
theorem firstMatch_append_of_not_mem (hsh : Nat) (rows1 rows2 : List FileMeta)
    (h : ∀ r ∈ rows1, r.hash ≠ hsh) :
    firstMatch hsh (rows1 ++ rows2) = firstMatch hsh rows2 := by
  induction rows1 with
  | nil => rfl
  | cons r rest ih =>
    have hr : ¬ r.hash = hsh := h r (List.mem_cons_self _ _)
    simp only [List.cons_append, firstMatch, hr, if_false]
    exact ih fun t ht => h t (List.mem_cons_of_mem _ ht)

/-- Inductive invariant of the producer/queue system: for a positive
capacity the queue depth never exceeds the capacity, and whenever the
producer is outside its wait loop the depth is strictly below it. -/
theorem prodReach_inv (cap : Nat) (hcap : 1 ≤ cap) (paths : List String)
    (s : ProdState) (h : ProdReach cap paths s) :
    s.queueLen ≤ cap ∧ (s.waiting = false → s.queueLen < cap) := by
  induction h with
  | init => exact ⟨Nat.zero_le _, fun _ => hcap⟩
  | step hreach hstep ih =>
    cases hstep with
    | put q p rest =>
      exact ⟨Nat.succ_le_of_lt (ih.2 rfl), fun hw => by cases hw⟩
    | checkPass q ts hlt =>
      exact ⟨ih.1, fun _ => hlt⟩
    | consume q ts w =>
      exact ⟨Nat.le_of_succ_le ih.1, fun hw => Nat.lt_of_succ_lt (ih.2 hw)⟩

/-! Claims. -/

/-- C1 counterexample: a file that vanishes between discovery and read
(`FileNotFoundError`, so `calculate_file_metadata` returns `None`) makes
the parallel worker advance the progress counter and continue, but no
alert of any kind is appended — the failure is silent, contradicting the
claim that every hashing failure yields a `ProcessingError` alert. -/
theorem c1_counterexample :
    (worker_run [] ⟨[], 0⟩ [("E:\\Images\\a.jpg", FetchOutcome.fileNotFound)]).alerts = [] ∧
    (worker_run [] ⟨[], 0⟩ [("E:\\Images\\a.jpg", FetchOutcome.fileNotFound)]).counter = 1 := by
  decide

/-- C1 amended: a hashing failure never aborts the run and always advances
the progress counter, but only failures other than `FileNotFoundError`
(for example a permission error) are reported as an error alert; a file
that vanished is skipped silently.  Both paths continue with the remaining
tasks. -/
theorem c1_amended (rows : List FileMeta) (s : WorkerState) (p e : String)
    (rest : List (String × FetchOutcome)) (hp : p ≠ "STOP") :
    worker_run rows s ((p, FetchOutcome.raised e) :: rest)
      = worker_run rows ⟨s.alerts ++ [Alert.processingError p e], s.counter + 1⟩ rest ∧
    worker_run rows s ((p, FetchOutcome.fileNotFound) :: rest)
      = worker_run rows ⟨s.alerts, s.counter + 1⟩ rest := by
  constructor <;> simp [worker_run, hp, worker_step, calculate_file_metadata]

/-- C1 witness: the amended statement at a concrete permission failure. -/
theorem c1_witness :
    worker_run [] ⟨[], 0⟩ [("E:\\Images\\b.jpg", FetchOutcome.raised "PermissionError")]
      = worker_run [] ⟨[Alert.processingError "E:\\Images\\b.jpg" "PermissionError"], 1⟩ [] :=
  (c1_amended [] ⟨[], 0⟩ "E:\\Images\\b.jpg" "PermissionError" [] (by decide)).1

/-- C2 counterexample: the fingerprints `2 ^ 63 + 1` (live) and `2 ^ 63`
(baseline) differ as integers, yet the baseline lookup matches them,
because both round to the same float64 value in the shared array; the
comparison is not exact integer equality. -/
theorem c2_counterexample :
    (2 ^ 63 + 1 ≠ (2 ^ 63 : Nat)) ∧
    (firstMatch (fl (2 ^ 63 + 1)) [storeRow ⟨2 ^ 63, 10, 0⟩]).isSome = true ∧
    processFile [storeRow ⟨2 ^ 63, 10, 0⟩] "E:\\Images\\a.jpg" ⟨2 ^ 63 + 1, 10, 0⟩ = [] := by
  decide

/-- C2 amended: equal fingerprints always match the baseline lookup, and
for fingerprints below `2 ^ 53` (exactly representable in float64) the
lookup matches exactly when the integers are equal; above that bound,
distinct integers rounding to the same float64 value also match. -/
theorem c2_amended (entries : List FileMeta) (hsh : Nat) :
    ((∃ e ∈ entries, e.hash = hsh) →
      (firstMatch (fl hsh) (entries.map storeRow)).isSome = true) ∧
    ((∀ e ∈ entries, e.hash ≤ 2 ^ 53) → hsh ≤ 2 ^ 53 →
      ((firstMatch (fl hsh) (entries.map storeRow)).isSome = true ↔
        ∃ e ∈ entries, e.hash = hsh)) := by
  constructor
  · rintro ⟨e, he, rfl⟩
    rw [firstMatch_isSome_iff]
    exact ⟨storeRow e, List.mem_map_of_mem _ he, rfl⟩
  · intro hall hle
    rw [firstMatch_isSome_iff]
    constructor
    · rintro ⟨r, hr, hhash⟩
      obtain ⟨e, he, rfl⟩ := List.mem_map.mp hr
      refine ⟨e, he, ?_⟩
      have h1 : (storeRow e).hash = e.hash := fl_of_le (hall e he)
      rw [h1, fl_of_le hle] at hhash
      exact hhash
    · rintro ⟨e, he, rfl⟩
      exact ⟨storeRow e, List.mem_map_of_mem _ he, rfl⟩

/-- C2 witness: the amended statement at a concrete matching fingerprint. -/
theorem c2_witness :
    (firstMatch (fl 3) ([⟨3, 1, 0⟩].map storeRow)).isSome = true :=
  (c2_amended [⟨3, 1, 0⟩] 3).1 ⟨⟨3, 1, 0⟩, by decide, rfl⟩

/-- C3: over any sequence of claimed tasks none of which is the `"STOP"`
sentinel (the producer only enqueues joined directory paths and never
enqueues `"STOP"`), a worker starting from counter zero advances the
counter exactly once per task — on the success, hash-failure and
exception paths alike — so the final counter equals the number of tasks,
however many of them failed. -/
theorem c3_progress (rows : List FileMeta) (tasks : List (String × FetchOutcome))
    (h : ∀ t ∈ tasks, t.1 ≠ "STOP") :
    (worker_run rows ⟨[], 0⟩ tasks).counter = tasks.length := by
  have := worker_run_counter rows tasks ⟨[], 0⟩ h
  simpa using this

/-- C3 witness: three tasks, one per outcome kind, yield a final counter of
three. -/
theorem c3_witness :
    (worker_run [] ⟨[], 0⟩
      [("E:\\Images\\a.jpg", FetchOutcome.metadata ⟨1, 2, 3⟩),
       ("E:\\Images\\b.jpg", FetchOutcome.fileNotFound),
       ("E:\\Images\\c.jpg", FetchOutcome.raised "PermissionError")]).counter = 3 :=
  c3_progress [] _ (by decide)

/-- C4 counterexample: the live file coincides exactly (same fingerprint,
size and timestamp) with the second baseline record, yet the run emits a
`SizeChanged` alert, because the lookup returns the first row whose stored
fingerprint matches and that row belongs to a different record with the
same fingerprint.  An exactly-matching live tree therefore does not
guarantee an empty alert sequence. -/
theorem c4_counterexample :
    ((⟨5, 20, 0⟩ : FileMeta) ∈ [(⟨5, 10, 0⟩ : FileMeta), ⟨5, 20, 0⟩]) ∧
    (worker_run ([(⟨5, 10, 0⟩ : FileMeta), ⟨5, 20, 0⟩].map storeRow) ⟨[], 0⟩
        [("E:\\Images\\b.jpg", FetchOutcome.metadata ⟨5, 20, 0⟩)]).alerts
      = [Alert.sizeChanged "E:\\Images\\b.jpg"] := by
  decide

/-- C4 amended: if every live file is readable and coincides exactly with
some baseline record, and additionally no two stored baseline rows share
the same rounded fingerprint, then both the parallel run and the linear
run produce an empty alert sequence. -/
theorem c4_amended (entries : List FileMeta) (files : List (String × FileMeta))
    (hdist : (entries.map storeRow).Pairwise fun a b => a.hash ≠ b.hash)
    (hmatch : ∀ f ∈ files, f.1 ≠ "STOP" ∧ ∃ e ∈ entries, f.2.hash = e.hash ∧
      f.2.size = e.size ∧ f.2.timestamp = e.timestamp) :
    (worker_run (entries.map storeRow) ⟨[], 0⟩
        (files.map fun f => (f.1, FetchOutcome.metadata f.2))).alerts = [] ∧
    process_files (entries.map storeRow) (files.map fun f => (f.1, some f.2)) = [] := by
  constructor
  · exact worker_run_alerts_nil entries hdist files ⟨[], 0⟩ hmatch
  · exact process_files_alerts_nil entries hdist files
      fun f hf => (hmatch f hf).2

/-- C4 witness: a two-record baseline with distinct fingerprints and one
unchanged live file yield no alerts in either pipeline. -/
theorem c4_witness :
    (worker_run ([(⟨1, 10, 0⟩ : FileMeta), ⟨2, 20, 5⟩].map storeRow) ⟨[], 0⟩
        ([(("E:\\Images\\a.jpg", ⟨1, 10, 0⟩) : String × FileMeta)].map
          fun f => (f.1, FetchOutcome.metadata f.2))).alerts = [] ∧
    process_files ([(⟨1, 10, 0⟩ : FileMeta), ⟨2, 20, 5⟩].map storeRow)
      ([(("E:\\Images\\a.jpg", ⟨1, 10, 0⟩) : String × FileMeta)].map
        fun f => (f.1, some f.2)) = [] :=
  c4_amended [⟨1, 10, 0⟩, ⟨2, 20, 5⟩] [("E:\\Images\\a.jpg", ⟨1, 10, 0⟩)]
    (by decide) (by decide)

/-- C5 counterexample: the live size `2 ^ 53 + 1` differs from the baseline
size `2 ^ 53` for a fingerprint-matched readable file, yet no
`SizeChanged` alert is emitted, because the size comparison happens on
float64 values and both sizes round to the same one. -/
theorem c5_counterexample :
    (2 ^ 53 + 1 ≠ (2 ^ 53 : Nat)) ∧
    processFile [storeRow ⟨7, 2 ^ 53, 0⟩] "E:\\Images\\c.jpg" ⟨7, 2 ^ 53 + 1, 0⟩ = [] := by
  decide

/-- C5 amended: for a readable live file whose fingerprint matches a
baseline row, the size and timestamp comparisons against that row are
independent: each fires exactly when its field differs after float64
conversion, both may fire for one file, and nothing is emitted when both
fields agree; for sizes up to `2 ^ 53` the size comparison is exact
integer equality. -/
theorem c5_amended (rows : List FileMeta) (p : String) (m row : FileMeta)
    (h : firstMatch (fl m.hash) rows = some row) :
    (fl m.size ≠ row.size ∧ m.timestamp ≠ row.timestamp →
      processFile rows p m = [Alert.sizeChanged p, Alert.timestampChanged p]) ∧
    (fl m.size ≠ row.size ∧ m.timestamp = row.timestamp →
      processFile rows p m = [Alert.sizeChanged p]) ∧
    (fl m.size = row.size ∧ m.timestamp ≠ row.timestamp →
      processFile rows p m = [Alert.timestampChanged p]) ∧
    (fl m.size = row.size ∧ m.timestamp = row.timestamp →
      processFile rows p m = []) ∧
    (m.size ≤ 2 ^ 53 → (fl m.size = row.size ↔ m.size = row.size)) := by
  refine ⟨?_, ?_, ?_, ?_, ?_⟩
  · rintro ⟨h1, h2⟩; simp [processFile, h, h1, h2]
  · rintro ⟨h1, h2⟩; simp [processFile, h, h1, h2]
  · rintro ⟨h1, h2⟩; simp [processFile, h, h1, h2]
  · rintro ⟨h1, h2⟩; simp [processFile, h, h1, h2]
  · intro hle; rw [fl_of_le hle]

/-- C5 witness: the amended statement at a concrete size-only change. -/
theorem c5_witness :
    processFile [⟨3, 10, 5⟩] "E:\\Images\\d.jpg" ⟨3, 20, 5⟩
      = [Alert.sizeChanged "E:\\Images\\d.jpg"] :=
  (c5_amended [⟨3, 10, 5⟩] "E:\\Images\\d.jpg" ⟨3, 20, 5⟩ ⟨3, 10, 5⟩
    (by decide)).2.1 (by decide)

/-- C6: a readable live file whose rounded fingerprint occurs in no
baseline row yields exactly one `NewFile` alert, and the outcome is
independent of the file's size and timestamp — no size or timestamp
comparison takes place for it. -/
theorem c6_newFile (rows : List FileMeta) (p : String) (m : FileMeta)
    (h : firstMatch (fl m.hash) rows = none) :
    processFile rows p m = [Alert.newFile p] ∧
    ∀ (sz : Nat) (ts : ℚ), processFile rows p ⟨m.hash, sz, ts⟩ = [Alert.newFile p] := by
  constructor
  · simp [processFile, h]
  · intro sz ts
    have hh : (⟨m.hash, sz, ts⟩ : FileMeta).hash = m.hash := rfl
    simp [processFile, hh, h]

/-- C6 witness: a fingerprint absent from the baseline produces the single
`NewFile` alert. -/
theorem c6_witness :
    processFile [⟨3, 10, 5⟩] "E:\\Images\\e.jpg" ⟨4, 9, 9⟩
      = [Alert.newFile "E:\\Images\\e.jpg"] :=
  (c6_newFile [⟨3, 10, 5⟩] "E:\\Images\\e.jpg" ⟨4, 9, 9⟩ (by decide)).1

/-- C7: evaluation of both pipelines at a failing input — a baseline
holding one record whose fingerprint no live file carries (the live tree
is empty) — shows that the run terminates with zero alerts: neither
pipeline ever emits any alert for a baseline entry that is matched by no
live file, so deleted files go unreported (there is no `MissingFile`
emission anywhere in the code). -/
theorem c7_code_eval :
    (worker_run [storeRow ⟨1, 10, 5⟩] ⟨[], 0⟩ []).alerts = [] ∧
    process_files [storeRow ⟨1, 10, 5⟩] [] = [] := by
  decide

/-- C8 counterexample: a structurally valid two-record snapshot scanned
against a directory holding a single live file aborts the run before any
scanning (the shared array has one row per live file and the assignment of
the second record raises `IndexError`), so corrupt-baseline failure is not
the only fatal error in the pipeline. -/
theorem c8_counterexample :
    mainRun (some [⟨1, 10, 0⟩, ⟨2, 20, 0⟩]) 1 [] = RunResult.failed := by
  decide

/-- C8 amended: a syntactically invalid baseline snapshot aborts the run
before the producer or any worker starts, with zero alerts and a failure
exit; and whenever the baseline loads (well-formed snapshot with at most
one record per live file), the run completes for every combination of
per-file outcomes — per-file failures are never fatal.  The load phase,
however, can also die on a well-formed snapshot with more records than
live files. -/
theorem c8_amended (num_files : Nat) (entries : List FileMeta)
    (tasks : List (String × FetchOutcome)) (hlen : entries.length ≤ num_files) :
    mainRun none num_files tasks = RunResult.failed ∧
    ∃ alerts counterVal,
      mainRun (some entries) num_files tasks = RunResult.completed alerts counterVal := by
  constructor
  · rfl
  · have hload : load_baseline_metadata entries num_files
        = some (entries.map storeRow
            ++ List.replicate (num_files - entries.length) ⟨0, 0, 0⟩) := by
      simp [load_baseline_metadata, hlen]
    exact ⟨(worker_run (entries.map storeRow
        ++ List.replicate (num_files - entries.length) ⟨0, 0, 0⟩) ⟨[], 0⟩ tasks).alerts,
      (worker_run (entries.map storeRow
        ++ List.replicate (num_files - entries.length) ⟨0, 0, 0⟩) ⟨[], 0⟩ tasks).counter,
      by simp [mainRun, hload]⟩

/-- C8 witness: the amended statement at a one-record snapshot, a
three-row array and an empty task list. -/
theorem c8_witness :
    mainRun none 3 [] = RunResult.failed ∧
    ∃ alerts counterVal,
      mainRun (some [⟨1, 10, 0⟩]) 3 [] = RunResult.completed alerts counterVal :=
  c8_amended 3 [⟨1, 10, 0⟩] [] (by decide)

/-- C9 counterexample: with queue capacity `0` the produced state after the
producer's first unconditional `put` is reachable and holds one unclaimed
task, exceeding the capacity — the producer enqueues before it checks the
queue size, so the claimed invariant fails for capacity zero. -/
theorem c9_counterexample :
    ProdReach 0 ["E:\\Images\\a.jpg"] ⟨1, [], true⟩ ∧
    ¬ ((⟨1, [], true⟩ : ProdState).queueLen ≤ 0) :=
  ⟨ProdReach.step ProdReach.init (ProdStep.put 0 "E:\\Images\\a.jpg" []),
   by decide⟩

/-- C9 amended: for every queue capacity of at least one, every state
reachable in a producer run holds at most `cap` unclaimed tasks: the
producer enqueues one path and then waits until the observed queue size
drops below the capacity, so the depth never exceeds it (it reaches
exactly `cap` momentarily after a `put`). -/
theorem c9_amended (cap : Nat) (hcap : 1 ≤ cap) (paths : List String)
    (s : ProdState) (h : ProdReach cap paths s) : s.queueLen ≤ cap :=
  (prodReach_inv cap hcap paths s h).1

/-- C9 witness: the amended statement at capacity one and the initial
state. -/
theorem c9_witness : (⟨0, ["E:\\Images\\a.jpg"], false⟩ : ProdState).queueLen ≤ 1 :=
  c9_amended 1 (by decide) ["E:\\Images\\a.jpg"] _ ProdReach.init

/-- C10: the parallel pipeline sizes the shared baseline array by the
number of live files, not by the snapshot length.  A snapshot with more
records than live files makes `load_baseline_metadata` fail at its
out-of-range write; with fewer records the surplus rows keep their zeros
and behave during lookup as baseline entries with fingerprint `0`, size
`0` and timestamp `0`: a live file whose rounded fingerprint is `0` (and
absent among the real records) is matched against such a zero row instead
of being reported as a new file. -/
theorem c10_allocation (entries : List FileMeta) (num_files : Nat) (p : String)
    (m : FileMeta) :
    (num_files < entries.length → load_baseline_metadata entries num_files = none) ∧
    (∀ rows, load_baseline_metadata entries num_files = some rows →
      entries.length < num_files → fl m.hash = 0 →
      (∀ e ∈ entries, fl e.hash ≠ 0) →
      processFile rows p m =
        (if fl m.size ≠ 0 then [Alert.sizeChanged p] else []) ++
        (if m.timestamp ≠ 0 then [Alert.timestampChanged p] else [])) := by
  constructor
  · intro hover
    simp only [load_baseline_metadata, ite_eq_right_iff]
    intro hle
    omega
  · intro rows hload hlt h0 hnz
    have hle : entries.length ≤ num_files := Nat.le_of_lt hlt
    have hrows : rows = entries.map storeRow
        ++ List.replicate (num_files - entries.length) ⟨0, 0, 0⟩ := by
      simp only [load_baseline_metadata, if_pos hle, Option.some.injEq] at hload
      exact hload.symm
    subst hrows
    have h1 : ∀ r ∈ entries.map storeRow, r.hash ≠ fl m.hash := by
      intro r hr
      obtain ⟨e, he, rfl⟩ := List.mem_map.mp hr
      rw [h0]
      exact hnz e he
    obtain ⟨j, hj⟩ : ∃ j, num_files - entries.length = j + 1 :=
      ⟨num_files - entries.length - 1, by omega⟩
    have h2 : firstMatch (fl m.hash)
        (entries.map storeRow ++ List.replicate (num_files - entries.length) ⟨0, 0, 0⟩)
        = some ⟨0, 0, 0⟩ := by
      rw [firstMatch_append_of_not_mem _ _ _ h1, hj, List.replicate_succ]
      simp [firstMatch, h0]
    simp [processFile, h2]

/-- C10 witness: a two-record snapshot against a one-file directory fails
to load, and a padded one-record baseline treats a zero-fingerprint live
file as a changed file rather than a new one. -/
theorem c10_witness :
    load_baseline_metadata [⟨1, 1, 1⟩, ⟨2, 2, 2⟩] 1 = none ∧
    processFile [storeRow ⟨1, 1, 1⟩, ⟨0, 0, 0⟩] "E:\\Images\\z.jpg" ⟨0, 5, 3⟩
      = [Alert.sizeChanged "E:\\Images\\z.jpg",
         Alert.timestampChanged "E:\\Images\\z.jpg"] := by
  constructor
  · exact (c10_allocation [⟨1, 1, 1⟩, ⟨2, 2, 2⟩] 1 "E:\\Images\\z.jpg" ⟨0, 0, 0⟩).1
      (by decide)
  · have h := (c10_allocation [⟨1, 1, 1⟩] 2 "E:\\Images\\z.jpg" ⟨0, 5, 3⟩).2
      [storeRow ⟨1, 1, 1⟩, ⟨0, 0, 0⟩] (by decide) (by decide) (by decide) (by decide)
    simpa using h

end FIM
